import Mathlib

/-!
Verification of the Netflix catalog API (Django REST service).

Shallow embedding of the query/aggregation core of `api/views.py`,
`api/serializers.py` and `api/models.py`:

* a `Title` record mirrors the `NetflixTitle` model (the two server-assigned
  timestamps are omitted: they are read-only metadata no endpoint logic reads);
* the record store is a `List Title` in insertion order; iterating a Django
  queryset applies the model's default `Meta.ordering`
  `['-date_added', '-release_year']` (SQLite places NULLs last under DESC),
  modelled by the stable sort `defaultSort`;
* Python string operations (`str.lower`, `str.strip`, `str.split(',')`,
  `int(...)`, `str(...)`) are modelled by executable char-list functions so
  that every definition evaluates inside the kernel;
* each view function becomes a pure function from its query parameters and
  the store to an `ApiResult`; `request.GET.get(name)` is an `Option String`
  (and Python truthiness makes the empty string behave like an absent
  parameter, captured by `pval`).
-/

namespace NetflixAPI

/-! ## Python-style string primitives (over `List Char`) -/

/-- Whitespace recognised by `str.strip` (ASCII fragment). -/
def isWs (c : Char) : Bool := c == ' ' || c == '\t' || c == '\n' || c == '\r'

/-- Strip whitespace from both ends, as Python `str.strip()`. -/
def trimChars (l : List Char) : List Char :=
  ((l.dropWhile isWs).reverse.dropWhile isWs).reverse

/-- Split on the comma character, as Python `s.split(',')`
(always at least one piece, empty pieces kept). -/
def splitComma : List Char → List (List Char)
  | [] => [[]]
  | c :: rest =>
    if c = ',' then [] :: splitComma rest
    else
      match splitComma rest with
      | [] => [[c]]
      | t :: ts => (c :: t) :: ts

/-- `p` occurs at the front of `l`. -/
def hasPre (p l : List Char) : Bool :=
  match p, l with
  | [], _ => true
  | _ :: _, [] => false
  | a :: as, b :: bs => a == b && hasPre as bs

/-- `p` occurs contiguously somewhere in `l`. -/
def hasSub (p l : List Char) : Bool :=
  match l with
  | [] => p.isEmpty
  | _ :: rest => hasPre p l || hasSub p rest

/-- Case-insensitive substring test: the embedding of Django's
`field__icontains=pat`. -/
def containsCI (hay pat : String) : Bool :=
  hasSub (pat.data.map Char.toLower) (hay.data.map Char.toLower)

/-- `icontains` on a nullable column: SQL `NULL LIKE ...` never matches. -/
def optContainsCI (hay : Option String) (pat : String) : Bool :=
  match hay with
  | some s => containsCI s pat
  | none => false

/-- Exact match on a nullable column (`Q(rating=v)`): NULL never equals. -/
def optEq (field : Option String) (v : String) : Bool :=
  match field with
  | some s => s == v
  | none => false

/-- Digit run to a number: the core of Python `int(...)`. -/
def digitsToNat : List Char → Option Nat
  | [] => none
  | l => l.foldl (fun acc c =>
      match acc with
      | none => none
      | some n => if '0' ≤ c ∧ c ≤ '9' then some (n * 10 + (c.toNat - 48)) else none)
      (some 0)

/-- Python `int(s)`: strips whitespace, optional sign, then digits only
(digit-group underscores are not modelled). `none` models `ValueError`. -/
def pyInt (s : String) : Option Int :=
  match trimChars s.data with
  | '-' :: rest => (digitsToNat rest).map (fun n => -(n : Int))
  | '+' :: rest => (digitsToNat rest).map (fun n => (n : Int))
  | l => (digitsToNat l).map (fun n => (n : Int))

/-- Decimal digits of `n`, with structural fuel so the kernel evaluates it. -/
def natDigitsAux (fuel : Nat) (n : Nat) : List Char :=
  match fuel with
  | 0 => []
  | fuel' + 1 =>
    if n < 10 then [Char.ofNat (48 + n)]
    else natDigitsAux fuel' (n / 10) ++ [Char.ofNat (48 + n % 10)]

/-- Python `str(i)` for integers. -/
def intStr (i : Int) : String :=
  if i < 0 then String.mk ('-' :: natDigitsAux 40 i.natAbs)
  else String.mk (natDigitsAux 40 i.natAbs)

/-- Python `s.lower()`. -/
def pyLower (s : String) : String := String.mk (s.data.map Char.toLower)

/-! ## Data model -/

/-- Embedding of the `NetflixTitle` model. `date_added` is an abstract day
number (only its ordering matters to the endpoints); nullable columns are
`Option`s. `created_at` / `updated_at` are omitted (read-only, never used by
endpoint logic). -/
structure Title where
  show_id : String
  type : String
  title : String
  director : Option String
  cast : Option String
  country : Option String
  date_added : Option Nat
  release_year : Int
  rating : Option String
  duration : String
  listed_in : String
  description : String
deriving DecidableEq, Repr

/-- `request.GET.get(name)` combined with Python truthiness: `None` and the
empty string both fail an `if param:` test, so both mean "absent". -/
def pval (o : Option String) : Option String :=
  match o with
  | some s => if s = "" then none else some s
  | none => none

/-! ## Stable sort (Python's `sorted` and the SQL ORDER BY are stable in the
model: ties keep the underlying order). -/

/-- Insert `x` before the first element `y` with `le x y` (so an element
coming earlier in the input stays before every tie). -/
def insertS {α : Type} (le : α → α → Bool) (x : α) : List α → List α
  | [] => [x]
  | y :: ys => if le x y then x :: y :: ys else y :: insertS le x ys

/-- Stable insertion sort. -/
def sortS {α : Type} (le : α → α → Bool) (l : List α) : List α :=
  l.foldr (insertS le) []

theorem insertS_perm {α : Type} (le : α → α → Bool) (x : α) (l : List α) :
    (insertS le x l).Perm (x :: l) := by
  induction l with
  | nil => simp [insertS]
  | cons y ys ih =>
    simp only [insertS]
    by_cases h : le x y = true
    · simp [h]
    · simp only [h, if_false]
      exact ((ih.cons y).trans (List.Perm.swap x y ys))

theorem sortS_perm {α : Type} (le : α → α → Bool) (l : List α) :
    (sortS le l).Perm l := by
  induction l with
  | nil => simp [sortS]
  | cons x xs ih =>
    have h1 : sortS le (x :: xs) = insertS le x (sortS le xs) := rfl
    rw [h1]
    exact (insertS_perm le x (sortS le xs)).trans (ih.cons x)

theorem insertS_pairwise {α : Type} (le : α → α → Bool)
    (htot : ∀ a b, le a b = false → le b a = true)
    (htrans : ∀ a b c, le a b = true → le b c = true → le a c = true)
    (x : α) (l : List α) (h : l.Pairwise (fun a b => le a b = true)) :
    (insertS le x l).Pairwise (fun a b => le a b = true) := by
  induction l with
  | nil => simp [insertS]
  | cons y ys ih =>
    rcases h with _ | ⟨hy, hys⟩
    simp only [insertS]
    by_cases hxy : le x y = true
    · rw [if_pos hxy]
      refine List.Pairwise.cons ?_ (List.Pairwise.cons hy hys)
      intro b hb
      rcases List.mem_cons.mp hb with hbe | hb'
      · exact hbe ▸ hxy
      · exact htrans x y b hxy (hy b hb')
    · have hyx : le y x = true := htot x y (by simpa using hxy)
      rw [if_neg hxy]
      refine List.Pairwise.cons ?_ (ih hys)
      intro b hb
      rcases List.mem_cons.mp ((insertS_perm le x ys).mem_iff.mp hb) with hbe | hb'
      · exact hbe ▸ hyx
      · exact hy b hb'

theorem sortS_pairwise {α : Type} (le : α → α → Bool)
    (htot : ∀ a b, le a b = false → le b a = true)
    (htrans : ∀ a b c, le a b = true → le b c = true → le a c = true)
    (l : List α) :
    (sortS le l).Pairwise (fun a b => le a b = true) := by
  induction l with
  | nil => simp [sortS]
  | cons x xs ih => exact insertS_pairwise le htot htrans x (sortS le xs) ih

/-- Stability, phrased through filters: if no element strictly preceding `x`
can satisfy `p` when `x` does, inserting `x` keeps the `p`-filtered sequence
intact (up to placing `x` at its front). -/
theorem insertS_filter {α : Type} (le : α → α → Bool) (p : α → Bool) (x : α)
    (hp : ∀ y, p x = true → le x y = false → p y = false) (l : List α) :
    (insertS le x l).filter p =
      if p x then x :: l.filter p else l.filter p := by
  induction l with
  | nil => simp [insertS, List.filter_cons]
  | cons y ys ih =>
    simp only [insertS]
    by_cases hxy : le x y = true
    · rw [if_pos hxy, List.filter_cons]
    · have hstep : p x = true → p y = false := fun hpx =>
        hp y hpx (by simpa using hxy)
      rw [if_neg hxy, List.filter_cons, List.filter_cons, ih]
      by_cases hpx : p x = true
      · have hpy : p y = false := hstep hpx
        simp [hpy, hpx]
      · have hpx' : p x = false := by simpa using hpx
        simp [hpx']

/-- A stable sort never reorders the elements sharing one key: filtering the
sorted list by a key-saturated predicate returns them in original order. -/
theorem sortS_filter {α : Type} (le : α → α → Bool) (p : α → Bool)
    (hp : ∀ x y, p x = true → le x y = false → p y = false) (l : List α) :
    (sortS le l).filter p = l.filter p := by
  induction l with
  | nil => rfl
  | cons x xs ih =>
    have h1 : sortS le (x :: xs) = insertS le x (sortS le xs) := rfl
    rw [h1, insertS_filter le p x (hp x) (sortS le xs), ih, List.filter_cons]

/-! ## Counter dictionaries

A Python `dict` used as a counter (`d[k] = d.get(k, 0) + c`) is an
insertion-ordered association list: an existing key is updated in place, a
new key is appended at the end. -/

def bumpBy {κ : Type} [DecidableEq κ] (c : Nat) (k : κ) :
    List (κ × Nat) → List (κ × Nat)
  | [] => [(k, c)]
  | (k', n) :: rest =>
    if k' = k then (k', n + c) :: rest else (k', n) :: bumpBy c k rest

/-- `d.get(k, 0)`. -/
def lookupN {κ : Type} [DecidableEq κ] (k : κ) : List (κ × Nat) → Nat
  | [] => 0
  | (k', n) :: rest => if k' = k then n else lookupN k rest

def keysOf {κ : Type} (l : List (κ × Nat)) : List κ := l.map Prod.fst

/-- Accumulate a stream of `(key, weight)` pairs into a counter dict. -/
def tallyFrom {κ : Type} [DecidableEq κ] (init : List (κ × Nat))
    (stream : List (κ × Nat)) : List (κ × Nat) :=
  stream.foldl (fun acc p => bumpBy p.2 p.1 acc) init

def tally {κ : Type} [DecidableEq κ] (stream : List (κ × Nat)) :
    List (κ × Nat) :=
  tallyFrom [] stream

theorem lookupN_bumpBy {κ : Type} [DecidableEq κ] (c : Nat) (k k' : κ)
    (l : List (κ × Nat)) :
    lookupN k (bumpBy c k' l) = lookupN k l + (if k' = k then c else 0) := by
  induction l with
  | nil =>
    by_cases h : k' = k <;> simp [bumpBy, lookupN, h]
  | cons p rest ih =>
    obtain ⟨k₀, n₀⟩ := p
    simp only [bumpBy]
    by_cases h0 : k₀ = k'
    · rw [if_pos h0]
      by_cases hk : k₀ = k
      · have hk' : k' = k := h0.symm.trans hk
        simp [lookupN, hk, hk']
      · have hk' : ¬ k' = k := fun he => hk (h0.trans he)
        simp [lookupN, hk, hk']
    · rw [if_neg h0]
      by_cases hk : k₀ = k
      · have hk' : ¬ k' = k := fun he => h0 (hk.trans he.symm)
        simp [lookupN, hk, hk']
      · simp [lookupN, hk, ih]

theorem mem_keysOf_bumpBy {κ : Type} [DecidableEq κ] (c : Nat) (k a : κ)
    (l : List (κ × Nat)) :
    a ∈ keysOf (bumpBy c k l) ↔ a ∈ keysOf l ∨ a = k := by
  induction l with
  | nil => simp [bumpBy, keysOf]
  | cons p rest ih =>
    obtain ⟨k₀, n₀⟩ := p
    simp only [bumpBy]
    by_cases h0 : k₀ = k
    · subst h0
      simp [keysOf]
      tauto
    · rw [if_neg h0]
      simp [keysOf] at ih ⊢
      tauto

theorem nodup_keysOf_bumpBy {κ : Type} [DecidableEq κ] (c : Nat) (k : κ)
    (l : List (κ × Nat)) (h : (keysOf l).Nodup) :
    (keysOf (bumpBy c k l)).Nodup := by
  induction l with
  | nil => simp [bumpBy, keysOf]
  | cons p rest ih =>
    obtain ⟨k₀, n₀⟩ := p
    simp only [keysOf, List.map_cons, List.nodup_cons] at h
    obtain ⟨hnotin, hrest⟩ := h
    simp only [bumpBy]
    by_cases h0 : k₀ = k
    · rw [if_pos h0]
      simp only [keysOf, List.map_cons, List.nodup_cons]
      exact ⟨hnotin, hrest⟩
    · rw [if_neg h0]
      simp only [keysOf, List.map_cons, List.nodup_cons]
      refine ⟨?_, ih hrest⟩
      intro hmem
      rcases (mem_keysOf_bumpBy c k k₀ rest).mp hmem with hin | he
      · exact hnotin hin
      · exact h0 he

theorem lookupN_of_mem_nodup {κ : Type} [DecidableEq κ] {k : κ} {n : Nat}
    {l : List (κ × Nat)} (hmem : (k, n) ∈ l) (hnd : (keysOf l).Nodup) :
    lookupN k l = n := by
  induction l with
  | nil => cases hmem
  | cons p rest ih =>
    obtain ⟨k₀, n₀⟩ := p
    simp only [keysOf, List.map_cons, List.nodup_cons] at hnd
    obtain ⟨hnotin, hrest⟩ := hnd
    rcases List.mem_cons.mp hmem with he | hm
    · rw [Prod.mk.injEq] at he
      obtain ⟨rfl, rfl⟩ := he
      simp [lookupN]
    · have hk : ¬ k₀ = k := by
        intro h
        subst h
        exact hnotin (List.mem_map.mpr ⟨(k₀, n), hm, rfl⟩)
      simp only [lookupN]
      rw [if_neg hk]
      exact ih hm hrest

theorem lookupN_tallyFrom {κ : Type} [DecidableEq κ] (k : κ)
    (stream : List (κ × Nat)) (init : List (κ × Nat)) :
    lookupN k (tallyFrom init stream) =
      lookupN k init + ((stream.filter (fun p => p.1 = k)).map Prod.snd).sum := by
  induction stream generalizing init with
  | nil => simp [tallyFrom]
  | cons p rest ih =>
    obtain ⟨k₀, c₀⟩ := p
    simp only [tallyFrom, List.foldl_cons] at *
    rw [ih (bumpBy c₀ k₀ init), lookupN_bumpBy, List.filter_cons]
    by_cases hk : k₀ = k
    · simp [hk, Nat.add_assoc, Nat.add_comm, Nat.add_left_comm]
    · simp [hk]

theorem mem_keysOf_tallyFrom {κ : Type} [DecidableEq κ] (a : κ)
    (stream : List (κ × Nat)) (init : List (κ × Nat)) :
    a ∈ keysOf (tallyFrom init stream) ↔
      a ∈ keysOf init ∨ a ∈ stream.map Prod.fst := by
  induction stream generalizing init with
  | nil => simp [tallyFrom]
  | cons p rest ih =>
    obtain ⟨k₀, c₀⟩ := p
    simp only [tallyFrom, List.foldl_cons] at *
    rw [ih (bumpBy c₀ k₀ init)]
    simp [mem_keysOf_bumpBy]
    tauto

theorem nodup_keysOf_tallyFrom {κ : Type} [DecidableEq κ]
    (stream : List (κ × Nat)) (init : List (κ × Nat))
    (h : (keysOf init).Nodup) :
    (keysOf (tallyFrom init stream)).Nodup := by
  induction stream generalizing init with
  | nil => simpa [tallyFrom]
  | cons p rest ih =>
    obtain ⟨k₀, c₀⟩ := p
    simp only [tallyFrom, List.foldl_cons] at *
    exact ih (bumpBy c₀ k₀ init) (nodup_keysOf_bumpBy c₀ k₀ init h)

def sumCounts {κ : Type} (l : List (κ × Nat)) : Nat := (l.map Prod.snd).sum

theorem sumCounts_bumpBy {κ : Type} [DecidableEq κ] (c : Nat) (k : κ)
    (l : List (κ × Nat)) :
    sumCounts (bumpBy c k l) = sumCounts l + c := by
  induction l with
  | nil => simp [bumpBy, sumCounts]
  | cons p rest ih =>
    obtain ⟨k₀, n₀⟩ := p
    simp only [bumpBy]
    by_cases h0 : k₀ = k
    · simp [h0, sumCounts, Nat.add_assoc, Nat.add_comm, Nat.add_left_comm]
    · simp [h0, sumCounts] at ih ⊢
      omega

theorem sumCounts_tallyFrom {κ : Type} [DecidableEq κ]
    (stream : List (κ × Nat)) (init : List (κ × Nat)) :
    sumCounts (tallyFrom init stream) =
      sumCounts init + (stream.map Prod.snd).sum := by
  induction stream generalizing init with
  | nil => simp [tallyFrom]
  | cons p rest ih =>
    obtain ⟨k₀, c₀⟩ := p
    simp only [tallyFrom, List.foldl_cons] at *
    rw [ih (bumpBy c₀ k₀ init), sumCounts_bumpBy]
    simp only [List.map_cons, List.sum_cons]
    omega

/-! ## Default queryset ordering

`class Meta: ordering = ['-date_added', '-release_year']` — every plain
queryset iterates in this order. SQLite treats NULL as smaller than any
value, so a DESC sort places NULL `date_added` last. -/

def optNatDescLe (a b : Option Nat) : Bool :=
  match a, b with
  | some x, some y => decide (y ≤ x)
  | some _, none => true
  | none, some _ => false
  | none, none => true

def defaultLe (a b : Title) : Bool :=
  if a.date_added = b.date_added then decide (b.release_year ≤ a.release_year)
  else optNatDescLe a.date_added b.date_added

/-- Iteration order of a plain queryset over the store. -/
def defaultSort (store : List Title) : List Title := sortS defaultLe store

theorem defaultSort_perm (store : List Title) :
    (defaultSort store).Perm store := sortS_perm defaultLe store

/-! ## Grouped counts (`.values(f).annotate(count=Count('show_id'))`) -/

def groupCounts {α κ : Type} [DecidableEq κ] (f : α → κ) (l : List α) :
    List (κ × Nat) :=
  tally (l.map (fun r => (f r, 1)))

theorem sum_map_one {α : Type} (l : List α) :
    (l.map (fun _ => (1 : Nat))).sum = l.length := by
  induction l with
  | nil => rfl
  | cons a t ih => simp [ih, Nat.add_comm]

theorem weights_filter_map {α κ : Type} (f : α → κ) (q : κ → Bool)
    (l : List α) :
    (((l.map (fun r => (f r, 1))).filter (fun p => q p.1)).map Prod.snd).sum =
      l.countP (fun r => q (f r)) := by
  induction l with
  | nil => rfl
  | cons r rest ih =>
    by_cases h : q (f r) = true <;>
      simp [List.filter_cons, List.countP_cons, h, ih, Nat.add_comm]

theorem lookupN_groupCounts {α κ : Type} [DecidableEq κ] (f : α → κ) (k : κ)
    (l : List α) :
    lookupN k (groupCounts f l) = l.countP (fun r => decide (f r = k)) := by
  rw [groupCounts, tally, lookupN_tallyFrom]
  simpa [lookupN] using weights_filter_map f (fun x => decide (x = k)) l

theorem sumCounts_groupCounts {α κ : Type} [DecidableEq κ] (f : α → κ)
    (l : List α) :
    sumCounts (groupCounts f l) = l.length := by
  rw [groupCounts, tally, sumCounts_tallyFrom]
  simp [sumCounts, Function.comp_def, sum_map_one]

theorem mem_keysOf_groupCounts {α κ : Type} [DecidableEq κ] (f : α → κ)
    (a : κ) (l : List α) :
    a ∈ keysOf (groupCounts f l) ↔ a ∈ l.map f := by
  rw [groupCounts, tally, mem_keysOf_tallyFrom]
  simp [keysOf, List.mem_map]

theorem nodup_keysOf_groupCounts {α κ : Type} [DecidableEq κ] (f : α → κ)
    (l : List α) : (keysOf (groupCounts f l)).Nodup :=
  nodup_keysOf_tallyFrom _ [] (by simp [keysOf])

theorem nodup_keysOf_tally {κ : Type} [DecidableEq κ]
    (stream : List (κ × Nat)) : (keysOf (tally stream)).Nodup :=
  nodup_keysOf_tallyFrom stream [] (by simp [keysOf])

/-- Sum of the counts of all entries whose key satisfies `q`. -/
def sumCountsP {κ : Type} (q : κ → Bool) (l : List (κ × Nat)) : Nat :=
  ((l.filter (fun p => q p.1)).map Prod.snd).sum

theorem sumCountsP_bumpBy {κ : Type} [DecidableEq κ] (q : κ → Bool) (c : Nat)
    (k : κ) (l : List (κ × Nat)) :
    sumCountsP q (bumpBy c k l) =
      sumCountsP q l + (if q k then c else 0) := by
  induction l with
  | nil =>
    by_cases h : q k = true <;> simp [bumpBy, sumCountsP, List.filter_cons, h]
  | cons p rest ih =>
    obtain ⟨k₀, n₀⟩ := p
    simp only [bumpBy]
    by_cases h0 : k₀ = k
    · rw [if_pos h0]
      subst h0
      by_cases h : q k₀ = true <;>
        simp [sumCountsP, List.filter_cons, h] <;> omega
    · rw [if_neg h0]
      by_cases h : q k₀ = true <;>
        simp [sumCountsP, List.filter_cons, h] at ih ⊢ <;> omega

theorem sumCountsP_tallyFrom {κ : Type} [DecidableEq κ] (q : κ → Bool)
    (stream : List (κ × Nat)) (init : List (κ × Nat)) :
    sumCountsP q (tallyFrom init stream) =
      sumCountsP q init + ((stream.filter (fun p => q p.1)).map Prod.snd).sum := by
  induction stream generalizing init with
  | nil => simp [tallyFrom]
  | cons p rest ih =>
    obtain ⟨k₀, c₀⟩ := p
    simp only [tallyFrom, List.foldl_cons] at *
    rw [ih (bumpBy c₀ k₀ init), sumCountsP_bumpBy, List.filter_cons]
    by_cases h : q k₀ = true <;> simp [h] <;> omega

theorem sumCountsP_groupCounts {α κ : Type} [DecidableEq κ] (f : α → κ)
    (q : κ → Bool) (l : List α) :
    sumCountsP q (groupCounts f l) = l.countP (fun r => q (f r)) := by
  rw [groupCounts, tally, sumCountsP_tallyFrom]
  simpa [sumCountsP] using weights_filter_map f q l

/-! ## API results -/

/-- Outcome of a view: HTTP 200 / 201 / 400 / 404 with its payload. -/
inductive ApiResult (α : Type) where
  | ok : α → ApiResult α
  | created : α → ApiResult α
  | clientError : String → ApiResult α
  | notFound : String → ApiResult α
deriving DecidableEq, Repr

/-! ## Endpoint 2: `title_create` (`POST /api/titles/create/`)

`NetflixTitleSerializer.is_valid()` collects every field error (uniqueness of
the primary key `show_id`, required non-blank fields, `max_length` bounds,
`validate_release_year`, `validate_type`); only a fully valid payload is
saved. A create request carries exactly the writable model fields, so it is
a `Title`. -/

def optLenLe (o : Option String) (n : Nat) : Bool :=
  match o with
  | some s => decide (s.length ≤ n)
  | none => true

/-- The serializer's validation, conjoined. -/
def validCreate (store : List Title) (req : Title) : Bool :=
  store.all (fun r => decide (r.show_id ≠ req.show_id)) &&
  decide (req.show_id ≠ "") && decide (req.show_id.length ≤ 20) &&
  decide (req.type.length ≤ 20) &&
  (req.type == "Movie" || req.type == "TV Show") &&
  decide (req.title ≠ "") && decide (req.title.length ≤ 250) &&
  optLenLe req.director 250 && optLenLe req.country 150 &&
  optLenLe req.rating 10 &&
  decide (1900 ≤ req.release_year) && decide (req.release_year ≤ 2030) &&
  decide (req.duration ≠ "") && decide (req.duration.length ≤ 20) &&
  decide (req.listed_in ≠ "") && decide (req.description ≠ "")

/-- Returns the response and the store after the request (the serializer
errors dict is abstracted to one message). -/
def title_create (req : Title) (store : List Title) :
    ApiResult Title × List Title :=
  if validCreate store req then (ApiResult.created req, store ++ [req])
  else (ApiResult.clientError "validation errors", store)

/-! ## Endpoint 3: `statistics` (`GET /api/statistics/`) -/

/-- Count-descending order used by `.order_by('-count')` and by
`sorted(..., key=lambda x: x[1], reverse=True)` (both stable in the model). -/
def cntDescLe {κ : Type} (a b : κ × Nat) : Bool := decide (b.2 ≤ a.2)

/-- `sorted(dict.items(), reverse=True)`: descending lexicographic tuple
order. -/
def pairDescLe (a b : Int × Nat) : Bool :=
  decide (b.1 < a.1) || (decide (a.1 = b.1) && decide (b.2 ≤ a.2))

/-- `.order_by('-release_year')` on year groups. -/
def yearDescLe (a b : Int × Nat) : Bool := decide (b.1 ≤ a.1)

/-- `(item['release_year'] // 10) * 10`. -/
def decadeOf (y : Int) : Int := (Int.fdiv y 10) * 10

def labelDecade (d : Int) : String := String.mk ((intStr d).data ++ ['s'])

/-- `.exclude(country__isnull=True).exclude(country='')`. -/
def hasCountry (r : Title) : Bool :=
  match r.country with
  | some s => decide (s ≠ "")
  | none => false

/-- `[c.strip() for c in title.country.split(',')]` (empty when NULL). -/
def countryTokens (r : Title) : List String :=
  match r.country with
  | some s => (splitComma s.data).map (fun tok => String.mk (trimChars tok))
  | none => []

/-- The two nested loops filling `country_counts`. -/
def countryCountsList (records : List Title) : List (String × Nat) :=
  records.foldl
    (fun acc r => (countryTokens r).foldl (fun acc c => bumpBy 1 c acc) acc)
    []

/-- `aggregate(Min(...))`. -/
def aggMin (l : List Int) : Option Int :=
  l.foldl (fun acc y =>
    match acc with
    | none => some y
    | some m => some (if y < m then y else m)) none

/-- `aggregate(Max(...))`. -/
def aggMax (l : List Int) : Option Int :=
  l.foldl (fun acc y =>
    match acc with
    | none => some y
    | some m => some (if m < y then y else m)) none

/-- The statistics payload (`avg_year`, a float, is outside the model; the
other two aggregates of `average_stats` are kept). -/
structure StatsResponse where
  total_count : Nat
  type_distribution : List (String × Nat)
  rating_breakdown : List (Option String × Nat)
  content_by_year : List (Int × Nat)
  top_countries : List (String × Nat)
  decade_analysis : List (String × Nat)
  min_year : Option Int
  max_year : Option Int
deriving DecidableEq, Repr

/-- `values('release_year').annotate(count=Count('show_id'))`. -/
def yearGroups (qs : List Title) : List (Int × Nat) :=
  groupCounts (fun r => r.release_year) qs

/-- The loop grouping the per-year counts into decade buckets. -/
def decadeCountsOf (qs : List Title) : List (Int × Nat) :=
  (yearGroups qs).foldl (fun acc p => bumpBy p.2 (decadeOf p.1) acc) []

/-- `sorted(decade_counts.items(), reverse=True)`. -/
def decadeBuckets (store : List Title) : List (Int × Nat) :=
  sortS pairDescLe (decadeCountsOf (defaultSort store))

/-- The `country_counts` dict of the statistics view. -/
def countryCountsOf (store : List Title) : List (String × Nat) :=
  countryCountsList ((defaultSort store).filter hasCountry)

/-- `sorted(country_counts.items(), key=lambda x: x[1], reverse=True)[:10]`. -/
def topCountriesOf (store : List Title) : List (String × Nat) :=
  (sortS cntDescLe (countryCountsOf store)).take 10

def statistics (store : List Title) : StatsResponse :=
  let qs := defaultSort store
  { total_count := store.length
    type_distribution := sortS cntDescLe (groupCounts (fun r => r.type) qs)
    rating_breakdown := sortS cntDescLe (groupCounts (fun r => r.rating) qs)
    content_by_year := (sortS yearDescLe (yearGroups qs)).take 20
    top_countries := topCountriesOf store
    decade_analysis :=
      (decadeBuckets store).map (fun p => (labelDecade p.1, p.2))
    min_year := aggMin (qs.map (fun r => r.release_year))
    max_year := aggMax (qs.map (fun r => r.release_year)) }

/-! ## Endpoint 4: `title_search` (`GET /api/titles/search/`) -/

/-- The nine optional query parameters, as received. -/
structure SearchParams where
  type : Option String
  rating : Option String
  country : Option String
  year_min : Option String
  year_max : Option String
  genre : Option String
  director : Option String
  cast : Option String
  title : Option String
deriving DecidableEq, Repr

def emptySearch : SearchParams :=
  ⟨none, none, none, none, none, none, none, none, none⟩

/-- `int(param)` for an optional parameter: outer `none` is the
`ValueError` that triggers the 400 response. -/
def parseOptInt (o : Option String) : Option (Option Int) :=
  match o with
  | none => some none
  | some s =>
    match pyInt s with
    | some n => some (some n)
    | none => none

/-- The conjunction the view accumulates into its `Q()` object, one conjunct
per present parameter, in source order. -/
def searchPred (p : SearchParams) (ymin ymax : Option Int) (r : Title) :
    Bool :=
  (match pval p.type with | some t => r.type == t | none => true) &&
  (match pval p.rating with | some v => optEq r.rating v | none => true) &&
  (match pval p.country with
   | some v => optContainsCI r.country v | none => true) &&
  (match ymin with | some n => decide (n ≤ r.release_year) | none => true) &&
  (match ymax with | some n => decide (r.release_year ≤ n) | none => true) &&
  (match pval p.genre with | some v => containsCI r.listed_in v | none => true) &&
  (match pval p.director with
   | some v => optContainsCI r.director v | none => true) &&
  (match pval p.cast with | some v => optContainsCI r.cast v | none => true) &&
  (match pval p.title with | some v => containsCI r.title v | none => true)

structure SearchResponse where
  count : Nat
  results : List Title
deriving DecidableEq, Repr

/-- `title_search`: `year_min` is parsed first, so its `ValueError` wins
regardless of `year_max`; the other seven parameters never fail. -/
def title_search (p : SearchParams) (store : List Title) :
    ApiResult SearchResponse :=
  match parseOptInt (pval p.year_min) with
  | none => ApiResult.clientError "year_min must be a valid integer"
  | some ymin =>
    match parseOptInt (pval p.year_max) with
    | none => ApiResult.clientError "year_max must be a valid integer"
    | some ymax =>
      let results := (defaultSort store).filter (searchPred p ymin ymax)
      ApiResult.ok ⟨results.length, results⟩

/-! ## Endpoint 5: `country_titles` (`GET /api/country/<country_name>/`)

`average_release_year`, a float, is outside the model; the rest of the
payload is kept. -/

structure CountryResponse where
  count : Nat
  country : String
  type_breakdown : List (String × Nat)
  titles : List Title
deriving DecidableEq, Repr

def country_titles (country_name : String) (store : List Title) :
    ApiResult CountryResponse :=
  let qs := (defaultSort store).filter
    (fun r => optContainsCI r.country country_name)
  if qs.isEmpty then
    ApiResult.notFound
      (String.mk ("No titles found for country: ".data ++ country_name.data))
  else
    ApiResult.ok ⟨qs.length, country_name, groupCounts (fun r => r.type) qs, qs⟩

/-! ## Endpoint 6: `recommendations` (`GET /api/recommendations/`) -/

/-- `.order_by('-release_year', '-date_added')`. -/
def recLe (a b : Title) : Bool :=
  decide (b.release_year < a.release_year) ||
    (decide (a.release_year = b.release_year) &&
      optNatDescLe a.date_added b.date_added)

inductive RecResponse where
  | message : String → RecResponse
  | results : String → Nat → List Title → RecResponse
deriving DecidableEq, Repr

/-- `queryset = NetflixTitle.objects.filter(listed_in__icontains=genre)`. -/
def genreFiltered (g : String) (store : List Title) : List Title :=
  (defaultSort store).filter (fun r => containsCI r.listed_in g)

/-- The optional `type` filter of the recommendations view. -/
def typeFiltered (type : Option String) (l : List Title) : List Title :=
  match pval type with
  | some t => l.filter (fun r => r.type == t)
  | none => l

/-- The optional `recent` filter: applied only when the parameter is truthy
and lowercases to `"true"` (`datetime.now().year` enters as `currentYear`). -/
def recentFiltered (recent : Option String) (currentYear : Int)
    (l : List Title) : List Title :=
  match pval recent with
  | some v =>
    if pyLower v = "true" then
      l.filter (fun r => decide (currentYear - 3 ≤ r.release_year))
    else l
  | none => l

/-- The successive `queryset = queryset.filter(...)` rebindings of the view,
in source order. -/
def recFiltered (g : String) (type recent : Option String) (currentYear : Int)
    (store : List Title) : List Title :=
  recentFiltered recent currentYear (typeFiltered type (genreFiltered g store))

/-- `.order_by('-release_year', '-date_added')[:20]`. -/
def recQueryset (g : String) (type recent : Option String) (currentYear : Int)
    (store : List Title) : List Title :=
  (sortS recLe (recFiltered g type recent currentYear store)).take 20

def recommendations (genre type recent : Option String) (currentYear : Int)
    (store : List Title) : ApiResult RecResponse :=
  match pval genre with
  | none => ApiResult.clientError "genre parameter is required"
  | some g =>
    let qs := recQueryset g type recent currentYear store
    if qs.isEmpty then
      ApiResult.ok (RecResponse.message
        "No recommendations found for the given criteria")
    else ApiResult.ok (RecResponse.results g qs.length qs)

/-! ## Concrete fixtures (used by witnesses and the C1 counterexample) -/

def sampleA : Title :=
  ⟨"s1", "Movie", "Alpha", none, none, some "United States", some 10, 2020,
    some "PG-13", "90 min", "Action, Drama", "desc"⟩

def sampleB : Title :=
  ⟨"s2", "TV Show", "Beta", none, none, some "United Kingdom, France",
    some 20, 2019, some "TV-MA", "2 Seasons", "Drama", "desc"⟩

def sampleC : Title :=
  ⟨"s3", "Movie", "Gamma", none, none, none, none, 2015, none, "80 min",
    "Comedy", "desc"⟩

def badYearReq : Title :=
  ⟨"s9", "Movie", "Old", none, none, none, none, 1800, none, "10 min",
    "Docs", "desc"⟩

/-! ## Search characterization -/

theorem title_search_eq (p : SearchParams) (store : List Title)
    (ymin ymax : Option Int)
    (hmin : parseOptInt (pval p.year_min) = some ymin)
    (hmax : parseOptInt (pval p.year_max) = some ymax) :
    title_search p store =
      ApiResult.ok
        ⟨((defaultSort store).filter (searchPred p ymin ymax)).length,
          (defaultSort store).filter (searchPred p ymin ymax)⟩ := by
  unfold title_search
  rw [hmin, hmax]

theorem title_search_ok_inv {p : SearchParams} {store : List Title}
    {resp : SearchResponse} (h : title_search p store = ApiResult.ok resp) :
    ∃ ymin ymax, parseOptInt (pval p.year_min) = some ymin ∧
      parseOptInt (pval p.year_max) = some ymax ∧
      resp = ⟨((defaultSort store).filter (searchPred p ymin ymax)).length,
        (defaultSort store).filter (searchPred p ymin ymax)⟩ := by
  unfold title_search at h
  cases hmin : parseOptInt (pval p.year_min) with
  | none =>
    simp only [hmin] at h
    exact ApiResult.noConfusion h
  | some ymin =>
    simp only [hmin] at h
    cases hmax : parseOptInt (pval p.year_max) with
    | none =>
      simp only [hmax] at h
      exact ApiResult.noConfusion h
    | some ymax =>
      simp only [hmax] at h
      cases h
      exact ⟨ymin, ymax, rfl, rfl, rfl⟩

/-! ## Claim C4 -/

/-- Claim C4: for every store state, the statistics `total_count` equals the
sum of the counts in `type_distribution`: grouping by kind partitions the
record set, so no record is omitted or double-counted. -/
theorem claim_C4_total_count_eq_type_sum (store : List Title) :
    (statistics store).total_count =
      sumCounts (statistics store).type_distribution := by
  have hperm :
      (sortS cntDescLe (groupCounts (fun r => r.type) (defaultSort store))).Perm
        (groupCounts (fun r => r.type) (defaultSort store)) := sortS_perm _ _
  have h2 :
      sumCounts (sortS cntDescLe (groupCounts (fun r => r.type) (defaultSort store))) =
        sumCounts (groupCounts (fun r => r.type) (defaultSort store)) := by
    unfold sumCounts
    exact (hperm.map Prod.snd).sum_eq
  show store.length = _
  have h3 : (statistics store).type_distribution =
      sortS cntDescLe (groupCounts (fun r => r.type) (defaultSort store)) := rfl
  rw [h3, h2, sumCounts_groupCounts]
  exact ((defaultSort_perm store).length_eq).symm

/-! ## Claim C3 -/

/-- The request of C3: `?year_min=2019&year_max=2020`, nothing else. -/
def p2019 : SearchParams :=
  { emptySearch with year_min := some "2019", year_max := some "2020" }

/-- Claim C3: a search with `year_min=2019` and `year_max=2020` returns
exactly the records with `2019 ≤ releaseYear ≤ 2020` (both bounds
inclusive); and a present `year_min` that fails integer parsing yields the
400 error no matter what `year_max` holds. -/
theorem claim_C3_year_range :
    (∀ store : List Title,
      title_search p2019 store =
        ApiResult.ok
          ⟨((defaultSort store).filter (fun r =>
              decide (2019 ≤ r.release_year) && decide (r.release_year ≤ 2020))).length,
            (defaultSort store).filter (fun r =>
              decide (2019 ≤ r.release_year) && decide (r.release_year ≤ 2020))⟩ ∧
      ∀ r : Title,
        r ∈ (defaultSort store).filter (fun r =>
            decide (2019 ≤ r.release_year) && decide (r.release_year ≤ 2020)) ↔
          r ∈ store ∧ 2019 ≤ r.release_year ∧ r.release_year ≤ 2020) ∧
    (∀ (p : SearchParams) (store : List Title) (s : String),
      pval p.year_min = some s → pyInt s = none →
      title_search p store =
        ApiResult.clientError "year_min must be a valid integer") := by
  constructor
  · intro store
    have hpred : ∀ r ∈ defaultSort store,
        searchPred p2019 (some 2019) (some 2020) r =
          (decide (2019 ≤ r.release_year) && decide (r.release_year ≤ 2020)) := by
      intro r _
      simp [searchPred, p2019, emptySearch, pval]
    constructor
    · have h := title_search_eq p2019 store (some 2019) (some 2020)
        (by decide) (by decide)
      rwa [List.filter_congr hpred] at h
    · intro r
      rw [List.mem_filter, (defaultSort_perm store).mem_iff]
      simp [decide_eq_true_eq]
  · intro p store s hs hparse
    unfold title_search
    have : parseOptInt (pval p.year_min) = none := by
      rw [hs]
      simp [parseOptInt, hparse]
    rw [this]

/-- Witness for C3 at a concrete store and a concrete malformed request. -/
theorem claim_C3_witness :
    title_search { emptySearch with year_min := some "abc" } [sampleA] =
      ApiResult.clientError "year_min must be a valid integer" ∧
    title_search p2019 [sampleA, sampleB, sampleC] =
      ApiResult.ok ⟨2, [sampleB, sampleA]⟩ := by
  constructor
  · exact claim_C3_year_range.2 { emptySearch with year_min := some "abc" }
      [sampleA] "abc" (by decide) (by decide)
  · exact ((claim_C3_year_range.1 [sampleA, sampleB, sampleC]).1).trans (by decide)

/-! ## Claim C2 -/

/-- Names of the optional search parameters, for stating that each one only
narrows the result set. -/
inductive SearchField where
  | fType | fRating | fCountry | fYearMin | fYearMax
  | fGenre | fDirector | fCast | fTitle
deriving DecidableEq, Repr

/-- Drop one parameter from a request. -/
def clearOne : SearchField → SearchParams → SearchParams
  | .fType, p => { p with type := none }
  | .fRating, p => { p with rating := none }
  | .fCountry, p => { p with country := none }
  | .fYearMin, p => { p with year_min := none }
  | .fYearMax, p => { p with year_max := none }
  | .fGenre, p => { p with genre := none }
  | .fDirector, p => { p with director := none }
  | .fCast, p => { p with cast := none }
  | .fTitle, p => { p with title := none }

def pMovie : SearchParams := { emptySearch with type := some "Movie" }

/-- Claim C2: the search composes its optional parameters as a pure
conjunction — a successful search returns exactly the records passing every
present parameter's test, dropping any one parameter can only enlarge the
result set, and a search with zero parameters returns every record with
`count` equal to the store size. -/
theorem claim_C2_search_conjunction :
    (∀ store : List Title,
      title_search emptySearch store =
        ApiResult.ok ⟨store.length, defaultSort store⟩ ∧
      (defaultSort store).Perm store) ∧
    (∀ (p : SearchParams) (store : List Title) (resp : SearchResponse)
        (ymin ymax : Option Int),
      parseOptInt (pval p.year_min) = some ymin →
      parseOptInt (pval p.year_max) = some ymax →
      title_search p store = ApiResult.ok resp →
      resp.results = (defaultSort store).filter (searchPred p ymin ymax) ∧
      resp.count = resp.results.length) ∧
    (∀ (f : SearchField) (p : SearchParams) (store : List Title)
        (resp resp' : SearchResponse),
      title_search p store = ApiResult.ok resp →
      title_search (clearOne f p) store = ApiResult.ok resp' →
      ∀ r ∈ resp.results, r ∈ resp'.results) := by
  refine ⟨?_, ?_, ?_⟩
  · intro store
    constructor
    · have h := title_search_eq emptySearch store none none rfl rfl
      have hf : (defaultSort store).filter (searchPred emptySearch none none) =
          defaultSort store := by
        have hall : ∀ r ∈ defaultSort store,
            searchPred emptySearch none none r = (fun _ => true) r :=
          fun r _ => rfl
        rw [List.filter_congr hall, List.filter_true]
      rw [hf] at h
      rw [h, (defaultSort_perm store).length_eq]
    · exact defaultSort_perm store
  · intro p store resp ymin ymax hmin hmax h
    obtain ⟨ymin', ymax', hmin', hmax', rfl⟩ := title_search_ok_inv h
    obtain rfl : ymin' = ymin := Option.some.inj (hmin'.symm.trans hmin)
    obtain rfl : ymax' = ymax := Option.some.inj (hmax'.symm.trans hmax)
    exact ⟨rfl, rfl⟩
  · intro f p store resp resp' h h'
    obtain ⟨ymin, ymax, hmin, hmax, rfl⟩ := title_search_ok_inv h
    obtain ⟨ymin', ymax', hmin', hmax', rfl⟩ := title_search_ok_inv h'
    intro r hr
    rw [List.mem_filter] at hr
    obtain ⟨hrmem, hrpred⟩ := hr
    rw [List.mem_filter]
    refine ⟨hrmem, ?_⟩
    cases f
    case fYearMin =>
      obtain rfl : ymax' = ymax :=
        Option.some.inj ((hmax' : parseOptInt (pval p.year_max) = some ymax').symm.trans hmax)
      obtain rfl : ymin' = none :=
        Option.some.inj ((hmin' : some none = some ymin').symm)
      simp only [searchPred, Bool.and_eq_true] at hrpred ⊢
      tauto
    case fYearMax =>
      obtain rfl : ymin' = ymin :=
        Option.some.inj ((hmin' : parseOptInt (pval p.year_min) = some ymin').symm.trans hmin)
      obtain rfl : ymax' = none :=
        Option.some.inj ((hmax' : some none = some ymax').symm)
      simp only [searchPred, Bool.and_eq_true] at hrpred ⊢
      tauto
    all_goals {
      obtain rfl : ymin' = ymin :=
        Option.some.inj ((hmin' : parseOptInt (pval p.year_min) = some ymin').symm.trans hmin)
      obtain rfl : ymax' = ymax :=
        Option.some.inj ((hmax' : parseOptInt (pval p.year_max) = some ymax').symm.trans hmax)
      simp only [searchPred, clearOne, Bool.and_eq_true] at hrpred ⊢
      simp only [pval] at hrpred ⊢
      tauto
    }

/-- Witness for C2 at concrete stores and requests. -/
theorem claim_C2_witness :
    title_search emptySearch [sampleA] = ApiResult.ok ⟨1, [sampleA]⟩ ∧
    (⟨1, [sampleA]⟩ : SearchResponse).count =
      (⟨1, [sampleA]⟩ : SearchResponse).results.length ∧
    sampleA ∈ ([sampleB, sampleA] : List Title) := by
  refine ⟨?_, ?_, ?_⟩
  · exact ((claim_C2_search_conjunction.1 [sampleA]).1).trans (by decide)
  · exact (claim_C2_search_conjunction.2.1 pMovie [sampleA, sampleB]
      ⟨1, [sampleA]⟩ none none (by decide) (by decide) (by decide)).2
  · exact claim_C2_search_conjunction.2.2 SearchField.fType pMovie
      [sampleA, sampleB] ⟨1, [sampleA]⟩ ⟨2, [sampleB, sampleA]⟩
      (by decide) (by decide) sampleA (by decide)

/-! ## Claim C6 -/

theorem validCreate_spec {store : List Title} {req : Title}
    (h : validCreate store req = true) :
    (∀ r ∈ store, r.show_id ≠ req.show_id) ∧
    (req.type = "Movie" ∨ req.type = "TV Show") ∧
    1900 ≤ req.release_year ∧ req.release_year ≤ 2030 := by
  simp only [validCreate, Bool.and_eq_true, Bool.or_eq_true, beq_iff_eq,
    decide_eq_true_eq, List.all_eq_true] at h
  refine ⟨?_, ?_, ?_, ?_⟩ <;> tauto

/-- Claim C6: a create whose `show_id` already exists is rejected with a
client error and the store is unchanged; so is one whose `releaseYear`
leaves `[1900, 2030]` or whose kind is neither `Movie` nor `TV Show`; a
valid create returns 201 with the stored record appended. -/
theorem claim_C6_create :
    (∀ (store : List Title) (req : Title),
      (∃ r ∈ store, r.show_id = req.show_id) →
      title_create req store =
        (ApiResult.clientError "validation errors", store)) ∧
    (∀ (store : List Title) (req : Title),
      (req.release_year < 1900 ∨ 2030 < req.release_year ∨
        (req.type ≠ "Movie" ∧ req.type ≠ "TV Show")) →
      title_create req store =
        (ApiResult.clientError "validation errors", store)) ∧
    (∀ (store : List Title) (req : Title),
      validCreate store req = true →
      title_create req store = (ApiResult.created req, store ++ [req])) := by
  refine ⟨?_, ?_, ?_⟩
  · intro store req hdup
    obtain ⟨r, hr, hid⟩ := hdup
    cases hval : validCreate store req with
    | false => simp [title_create, hval]
    | true => exact absurd hid ((validCreate_spec hval).1 r hr)
  · intro store req hbad
    cases hval : validCreate store req with
    | false => simp [title_create, hval]
    | true =>
      exfalso
      obtain ⟨-, htype, hy1, hy2⟩ := validCreate_spec hval
      rcases hbad with h | h | ⟨h1, h2⟩
      · omega
      · omega
      · tauto
  · intro store req h
    simp [title_create, h]

/-- Witness for C6: a duplicate id, an out-of-range year, and a valid
create, each at a concrete store. -/
theorem claim_C6_witness :
    title_create sampleA [sampleA] =
      (ApiResult.clientError "validation errors", [sampleA]) ∧
    title_create badYearReq [] =
      (ApiResult.clientError "validation errors", []) ∧
    title_create sampleB [sampleA] =
      (ApiResult.created sampleB, [sampleA, sampleB]) := by
  refine ⟨?_, ?_, ?_⟩
  · exact claim_C6_create.1 [sampleA] sampleA ⟨sampleA, by decide, rfl⟩
  · exact claim_C6_create.2.1 [] badYearReq (Or.inl (by decide))
  · exact claim_C6_create.2.2 [sampleA] sampleB (by decide)

/-! ## Claim C7 -/

/-- Claim C7: the country lookup 404s exactly when no record's country field
contains the path parameter case-insensitively; otherwise it returns `count`
equal to the number of matching records with a per-kind breakdown summing to
`count`. -/
theorem claim_C7_country (name : String) (store : List Title) :
    ((store.filter (fun r => optContainsCI r.country name)).length = 0 ↔
      country_titles name store =
        ApiResult.notFound
          (String.mk ("No titles found for country: ".data ++ name.data))) ∧
    (∀ resp, country_titles name store = ApiResult.ok resp →
      resp.count = (store.filter (fun r => optContainsCI r.country name)).length ∧
      sumCounts resp.type_breakdown = resp.count) ∧
    ((store.filter (fun r => optContainsCI r.country name)).length ≠ 0 →
      ∃ resp, country_titles name store = ApiResult.ok resp) := by
  have hqs : ((defaultSort store).filter
      (fun r => optContainsCI r.country name)).Perm
        (store.filter (fun r => optContainsCI r.country name)) :=
    (defaultSort_perm store).filter _
  have hlen : ((defaultSort store).filter
      (fun r => optContainsCI r.country name)).length =
        (store.filter (fun r => optContainsCI r.country name)).length :=
    hqs.length_eq
  refine ⟨?_, ?_, ?_⟩
  · constructor
    · intro h0
      have he : ((defaultSort store).filter
          (fun r => optContainsCI r.country name)).isEmpty = true := by
        rw [List.isEmpty_iff_length_eq_zero, hlen]
        exact h0
      unfold country_titles
      rw [if_pos he]
    · intro h
      by_cases he : ((defaultSort store).filter
          (fun r => optContainsCI r.country name)).isEmpty = true
      · rw [← hlen, ← List.isEmpty_iff_length_eq_zero]
        exact he
      · exfalso
        unfold country_titles at h
        rw [if_neg he] at h
        exact ApiResult.noConfusion h
  · intro resp h
    unfold country_titles at h
    by_cases he : ((defaultSort store).filter
        (fun r => optContainsCI r.country name)).isEmpty = true
    · rw [if_pos he] at h
      exact ApiResult.noConfusion h
    · rw [if_neg he] at h
      cases h
      refine ⟨hlen, ?_⟩
      show sumCounts (groupCounts (fun r => r.type)
          ((defaultSort store).filter (fun r => optContainsCI r.country name))) =
        ((defaultSort store).filter (fun r => optContainsCI r.country name)).length
      exact sumCounts_groupCounts _ _
  · intro h0
    by_cases he : ((defaultSort store).filter
        (fun r => optContainsCI r.country name)).isEmpty = true
    · exfalso
      rw [List.isEmpty_iff_length_eq_zero, hlen] at he
      exact h0 he
    · refine ⟨⟨((defaultSort store).filter
          (fun r => optContainsCI r.country name)).length, name,
          groupCounts (fun r => r.type)
            ((defaultSort store).filter (fun r => optContainsCI r.country name)),
          (defaultSort store).filter (fun r => optContainsCI r.country name)⟩, ?_⟩
      unfold country_titles
      rw [if_neg he]

/-- Witness for C7: a no-match lookup 404s; a matching lookup is checked
through the theorem at a concrete store. -/
theorem claim_C7_witness :
    country_titles "zz" [sampleA, sampleB] =
      ApiResult.notFound
        (String.mk ("No titles found for country: ".data ++ "zz".data)) ∧
    ((1 : Nat) =
        ([sampleA, sampleB].filter
          (fun r => optContainsCI r.country "france")).length ∧
      sumCounts [("TV Show", 1)] = 1) := by
  constructor
  · exact (claim_C7_country "zz" [sampleA, sampleB]).1.mp (by decide)
  · exact (claim_C7_country "france" [sampleA, sampleB]).2.1
      ⟨1, "france", [("TV Show", 1)], [sampleB]⟩ (by decide)

/-! ## Claim C8 -/

/-- Claim C8: recommendations without a (truthy) genre parameter always get
the 400 error; a genre matching nothing after the optional filters gets a
200 response carrying the informational message, not an error and not a bare
list. -/
theorem claim_C8_empty_cases :
    (∀ (genre type recent : Option String) (year : Int) (store : List Title),
      pval genre = none →
      recommendations genre type recent year store =
        ApiResult.clientError "genre parameter is required") ∧
    (∀ (g : String) (type recent : Option String) (year : Int)
        (store : List Title),
      g ≠ "" →
      recQueryset g type recent year store = [] →
      recommendations (some g) type recent year store =
        ApiResult.ok (RecResponse.message
          "No recommendations found for the given criteria")) := by
  constructor
  · intro genre type recent year store h
    unfold recommendations
    rw [h]
  · intro g type recent year store hg hq
    unfold recommendations
    rw [show pval (some g) = some g from by simp [pval, hg]]
    simp only [hq, List.isEmpty_nil, if_pos]

/-- Witness for C8 at concrete requests. -/
theorem claim_C8_witness :
    recommendations none none none 2024 [sampleA] =
      ApiResult.clientError "genre parameter is required" ∧
    recommendations (some "zz") none none 2024 [sampleA] =
      ApiResult.ok (RecResponse.message
        "No recommendations found for the given criteria") := by
  constructor
  · exact claim_C8_empty_cases.1 none none none 2024 [sampleA] rfl
  · exact claim_C8_empty_cases.2 "zz" none none 2024 [sampleA]
      (by decide) (by decide)

/-! ## Claim C10 -/

/-- Claim C10: the `recent` flag fires only when its value lowercases to
`"true"`; any other supplied value behaves exactly as if the parameter were
absent. -/
theorem claim_C10_recent_flag (g : String) (type : Option String) (v : String)
    (year : Int) (store : List Title) (hv : pyLower v ≠ "true") :
    recommendations (some g) type (some v) year store =
      recommendations (some g) type none year store := by
  have hq : ∀ l : List Title,
      recentFiltered (some v) year l = recentFiltered none year l := by
    intro l
    unfold recentFiltered
    cases hvv : pval (some v) with
    | none => rfl
    | some v' =>
      have hv' : v' = v := by
        by_cases hge : v = ""
        · simp [pval, hge] at hvv
        · simp [pval, hge] at hvv
          exact hvv.symm
      subst hv'
      show (if pyLower v' = "true" then
          l.filter (fun r => decide (year - 3 ≤ r.release_year)) else l) = l
      rw [if_neg hv]
  unfold recommendations recQueryset recFiltered
  simp only [hq]

/-- Witness for C10: `recent=false` behaves as an absent parameter. -/
theorem claim_C10_witness :
    recommendations (some "Drama") none (some "false") 2024
        [sampleA, sampleB] =
      recommendations (some "Drama") none none 2024 [sampleA, sampleB] :=
  claim_C10_recent_flag "Drama" none "false" 2024 [sampleA, sampleB]
    (by decide)

/-! ## Claim C9 -/

theorem optNatDescLe_total (a b : Option Nat) :
    optNatDescLe a b = false → optNatDescLe b a = true := by
  cases a <;> cases b <;> simp [optNatDescLe] <;> omega

theorem optNatDescLe_trans (a b c : Option Nat) :
    optNatDescLe a b = true → optNatDescLe b c = true →
    optNatDescLe a c = true := by
  cases a <;> cases b <;> cases c <;> simp [optNatDescLe] <;> omega

theorem recLe_total (a b : Title) : recLe a b = false → recLe b a = true := by
  unfold recLe
  intro h
  obtain ⟨h1, h2⟩ := Bool.or_eq_false_iff.mp h
  have h1' : ¬ b.release_year < a.release_year := by simpa using h1
  simp only [Bool.or_eq_true, Bool.and_eq_true, decide_eq_true_eq]
  by_cases he : a.release_year = b.release_year
  · have hd : optNatDescLe a.date_added b.date_added = false := by
      rcases Bool.and_eq_false_iff.mp h2 with hx | hx
      · exfalso
        simp [he] at hx
      · exact hx
    right
    exact ⟨he.symm, optNatDescLe_total _ _ hd⟩
  · left
    exact lt_of_le_of_ne (not_lt.mp h1') he

theorem recLe_trans (a b c : Title) :
    recLe a b = true → recLe b c = true → recLe a c = true := by
  unfold recLe
  simp only [Bool.or_eq_true, Bool.and_eq_true, decide_eq_true_eq]
  intro hab hbc
  rcases hab with h1 | ⟨he1, hd1⟩ <;> rcases hbc with h2 | ⟨he2, hd2⟩
  · left; omega
  · left; omega
  · left; omega
  · right; exact ⟨he1.trans he2, optNatDescLe_trans _ _ _ hd1 hd2⟩

/-- Claim C9: a valid-genre recommendation list holds at most 20 records,
is ordered by releaseYear descending then dateAdded descending, and under a
truthy `recent=true` flag holds only records with
`releaseYear ≥ currentYear − 3`; the records a 200 result carries are
exactly this queryset. -/
theorem claim_C9_recommendations_shape (g : String)
    (type recent : Option String) (year : Int) (store : List Title) :
    (recQueryset g type recent year store).length ≤ 20 ∧
    (recQueryset g type recent year store).Pairwise (fun a b =>
      b.release_year < a.release_year ∨
        (a.release_year = b.release_year ∧
          optNatDescLe a.date_added b.date_added = true)) ∧
    (∀ v, recent = some v → pyLower v = "true" → v ≠ "" →
      ∀ r ∈ recQueryset g type recent year store,
        year - 3 ≤ r.release_year) ∧
    (∀ (n : Nat) (recs : List Title),
      recommendations (some g) type recent year store =
        ApiResult.ok (RecResponse.results g n recs) →
      recs = recQueryset g type recent year store ∧ n = recs.length) := by
  refine ⟨?_, ?_, ?_, ?_⟩
  · show (List.take 20 _).length ≤ 20
    rw [List.length_take]
    exact min_le_left _ _
  · have hp := sortS_pairwise recLe recLe_total recLe_trans
      (recFiltered g type recent year store)
    have hp2 := hp.sublist (List.take_sublist 20 _)
    refine hp2.imp ?_
    intro a b hab
    unfold recLe at hab
    simpa [Bool.or_eq_true, Bool.and_eq_true, decide_eq_true_eq] using hab
  · intro v hv hlow hne r hr
    subst hv
    have h1 : r ∈ sortS recLe (recFiltered g type (some v) year store) :=
      (List.take_sublist 20 _).mem hr
    have h2 : r ∈ recFiltered g type (some v) year store :=
      (sortS_perm _ _).mem_iff.mp h1
    have h3 : recFiltered g type (some v) year store =
        (typeFiltered type (genreFiltered g store)).filter
          (fun r => decide (year - 3 ≤ r.release_year)) := by
      unfold recFiltered recentFiltered
      rw [show pval (some v) = some v from by simp [pval, hne]]
      show (if pyLower v = "true" then _ else _) = _
      rw [if_pos hlow]
    rw [h3] at h2
    simpa using (List.mem_filter.mp h2).2
  · intro n recs h
    unfold recommendations at h
    cases hg : pval (some g) with
    | none =>
      simp only [hg] at h
      exact ApiResult.noConfusion h
    | some g' =>
      have hg' : g' = g := by
        by_cases hge : g = ""
        · simp [pval, hge] at hg
        · simp [pval, hge] at hg
          exact hg.symm
      simp only [hg] at h
      rw [hg'] at h
      by_cases he : (recQueryset g type recent year store).isEmpty = true
      · rw [if_pos he] at h
        cases h
      · rw [if_neg he] at h
        cases h
        exact ⟨rfl, rfl⟩

/-- Witness for C9 at a concrete request (`genre=Drama&recent=TRUE` in
year 2021). -/
theorem claim_C9_witness :
    (recQueryset "Drama" none (some "TRUE") 2021 [sampleA, sampleB]).length
        ≤ 20 ∧
    (2021 : Int) - 3 ≤ sampleB.release_year ∧
    ([sampleA, sampleB] : List Title) =
      recQueryset "Drama" none (some "TRUE") 2021 [sampleA, sampleB] := by
  refine ⟨?_, ?_, ?_⟩
  · exact (claim_C9_recommendations_shape "Drama" none (some "TRUE") 2021
      [sampleA, sampleB]).1
  · exact (claim_C9_recommendations_shape "Drama" none (some "TRUE") 2021
      [sampleA, sampleB]).2.2.1 "TRUE" rfl (by decide) (by decide)
      sampleB (by decide)
  · exact ((claim_C9_recommendations_shape "Drama" none (some "TRUE") 2021
      [sampleA, sampleB]).2.2.2 2 [sampleA, sampleB] (by decide)).1

/-! ## Claim C5 -/

theorem weights_filter_mapPair {κ κ' : Type} (f : κ → κ') (q : κ' → Bool)
    (l : List (κ × Nat)) :
    (((l.map (fun p => (f p.1, p.2))).filter (fun p => q p.1)).map
      Prod.snd).sum = sumCountsP (fun k => q (f k)) l := by
  induction l with
  | nil => rfl
  | cons p rest ih =>
    simp only [List.map_cons, List.filter_cons, sumCountsP] at ih ⊢
    by_cases h : q (f p.1) = true
    · simp only [h, if_true, List.map_cons, List.sum_cons]
      omega
    · simp only [h, Bool.false_eq_true, if_false]
      omega

theorem decadeCountsOf_eq (qs : List Title) :
    decadeCountsOf qs =
      tally ((yearGroups qs).map (fun p => (decadeOf p.1, p.2))) := by
  unfold decadeCountsOf tally tallyFrom
  rw [List.foldl_map]

theorem lookupN_decadeCountsOf (d : Int) (qs : List Title) :
    lookupN d (decadeCountsOf qs) =
      qs.countP (fun r => decide (decadeOf r.release_year = d)) := by
  rw [decadeCountsOf_eq, tally, lookupN_tallyFrom]
  simp only [lookupN, Nat.zero_add]
  rw [weights_filter_mapPair (fun y => decadeOf y) (fun x => decide (x = d))
    (yearGroups qs)]
  exact sumCountsP_groupCounts (fun r => r.release_year)
    (fun y => decide (decadeOf y = d)) qs

theorem nodup_keysOf_decadeCountsOf (qs : List Title) :
    (keysOf (decadeCountsOf qs)).Nodup := by
  rw [decadeCountsOf_eq]
  exact nodup_keysOf_tally _

theorem mem_keysOf_decadeCountsOf {r : Title} {qs : List Title} (hr : r ∈ qs) :
    decadeOf r.release_year ∈ keysOf (decadeCountsOf qs) := by
  rw [decadeCountsOf_eq, tally, mem_keysOf_tallyFrom]
  right
  have hy : r.release_year ∈ keysOf (yearGroups qs) :=
    (mem_keysOf_groupCounts _ _ _).mpr (List.mem_map.mpr ⟨r, hr, rfl⟩)
  obtain ⟨p, hp, hfst⟩ := List.mem_map.mp hy
  exact List.mem_map.mpr ⟨(decadeOf p.1, p.2), List.mem_map.mpr ⟨p, hp, rfl⟩,
    by simp [hfst]⟩

theorem pairDescLe_total (a b : Int × Nat) :
    pairDescLe a b = false → pairDescLe b a = true := by
  unfold pairDescLe
  simp only [Bool.or_eq_false_iff, Bool.and_eq_false_iff, Bool.or_eq_true,
    Bool.and_eq_true, decide_eq_true_eq, decide_eq_false_iff_not]
  omega

theorem pairDescLe_trans (a b c : Int × Nat) :
    pairDescLe a b = true → pairDescLe b c = true →
    pairDescLe a c = true := by
  unfold pairDescLe
  simp only [Bool.or_eq_true, Bool.and_eq_true, decide_eq_true_eq]
  omega

/-- Claim C5: the decade analysis buckets every record at
`floor(releaseYear / 10) * 10`, counts records per bucket, lists the buckets
in descending decade order, and labels each one with the decade value
followed by `s`. -/
theorem claim_C5_decades (store : List Title) :
    (statistics store).decade_analysis =
      (decadeBuckets store).map (fun p => (labelDecade p.1, p.2)) ∧
    (decadeBuckets store).Pairwise (fun a b => b.1 < a.1) ∧
    (∀ d c, (d, c) ∈ decadeBuckets store →
      c = store.countP (fun r => decide (decadeOf r.release_year = d))) ∧
    (∀ r ∈ store,
      decadeOf r.release_year ∈ (decadeBuckets store).map Prod.fst) := by
  have hperm : (decadeBuckets store).Perm
      (decadeCountsOf (defaultSort store)) := sortS_perm _ _
  have hnodup : (keysOf (decadeBuckets store)).Nodup := by
    have := nodup_keysOf_decadeCountsOf (defaultSort store)
    exact ((hperm.map Prod.fst).nodup_iff).mpr this
  refine ⟨rfl, ?_, ?_, ?_⟩
  · have hpw := sortS_pairwise pairDescLe pairDescLe_total pairDescLe_trans
      (decadeCountsOf (defaultSort store))
    have hne : (decadeBuckets store).Pairwise (fun a b => a.1 ≠ b.1) :=
      (List.pairwise_map).mp hnodup
    have hand := List.Pairwise.and hpw hne
    refine hand.imp ?_
    intro a b hab
    obtain ⟨hle, hne'⟩ := hab
    rw [pairDescLe] at hle
    simp only [Bool.or_eq_true, Bool.and_eq_true, decide_eq_true_eq] at hle
    rcases hle with h | ⟨he, -⟩
    · exact h
    · exact absurd he hne'
  · intro d c hmem
    have hmem' : (d, c) ∈ decadeCountsOf (defaultSort store) :=
      hperm.mem_iff.mp hmem
    have hl := lookupN_of_mem_nodup hmem'
      (nodup_keysOf_decadeCountsOf (defaultSort store))
    rw [lookupN_decadeCountsOf] at hl
    rw [← hl]
    exact (defaultSort_perm store).countP_eq _
  · intro r hr
    have hr' : r ∈ defaultSort store := (defaultSort_perm store).mem_iff.mpr hr
    have := mem_keysOf_decadeCountsOf hr'
    have hkeys : (keysOf (decadeBuckets store)).Perm
        (keysOf (decadeCountsOf (defaultSort store))) := hperm.map Prod.fst
    exact hkeys.mem_iff.mpr this

/-- Witness for C5 at a concrete two-record store (decades 2020 and 2010). -/
theorem claim_C5_witness :
    (statistics [sampleA, sampleB]).decade_analysis =
      (decadeBuckets [sampleA, sampleB]).map
        (fun p => (labelDecade p.1, p.2)) ∧
    (1 : Nat) = ([sampleA, sampleB] : List Title).countP
      (fun r => decide (decadeOf r.release_year = 2020)) ∧
    decadeOf sampleB.release_year ∈
      (decadeBuckets [sampleA, sampleB]).map Prod.fst := by
  refine ⟨(claim_C5_decades [sampleA, sampleB]).1, ?_, ?_⟩
  · exact (claim_C5_decades [sampleA, sampleB]).2.2.1 2020 1 (by decide)
  · exact (claim_C5_decades [sampleA, sampleB]).2.2.2 sampleB (by decide)

/-! ## Claim C1 -/

theorem tallyFrom_append {κ : Type} [DecidableEq κ] (init : List (κ × Nat))
    (s t : List (κ × Nat)) :
    tallyFrom init (s ++ t) = tallyFrom (tallyFrom init s) t := by
  unfold tallyFrom
  rw [List.foldl_append]

theorem bumpFold_ones {κ : Type} [DecidableEq κ] (ks : List κ)
    (init : List (κ × Nat)) :
    ks.foldl (fun acc c => bumpBy 1 c acc) init =
      tallyFrom init (ks.map (fun c => (c, 1))) := by
  induction ks generalizing init with
  | nil => rfl
  | cons k rest ih =>
    simp only [List.foldl_cons, List.map_cons, tallyFrom] at ih ⊢
    exact ih (bumpBy 1 k init)

theorem countryFold_eq (records : List Title) (init : List (String × Nat)) :
    records.foldl
        (fun acc r => (countryTokens r).foldl (fun acc c => bumpBy 1 c acc) acc)
        init =
      tallyFrom init
        ((records.flatMap countryTokens).map (fun c => (c, 1))) := by
  induction records generalizing init with
  | nil => rfl
  | cons r rest ih =>
    simp only [List.foldl_cons, List.flatMap_cons, List.map_append]
    rw [tallyFrom_append]
    rw [show tallyFrom init ((countryTokens r).map (fun c => (c, 1))) =
        (countryTokens r).foldl (fun acc c => bumpBy 1 c acc) init from
      (bumpFold_ones _ _).symm]
    exact ih _

theorem countryCountsList_eq (records : List Title) :
    countryCountsList records =
      tally ((records.flatMap countryTokens).map (fun c => (c, 1))) :=
  countryFold_eq records []

theorem cntDescLe_total {κ : Type} (a b : κ × Nat) :
    cntDescLe a b = false → cntDescLe b a = true := by
  unfold cntDescLe
  simp only [decide_eq_true_eq, decide_eq_false_iff_not]
  omega

theorem cntDescLe_trans {κ : Type} (a b c : κ × Nat) :
    cntDescLe a b = true → cntDescLe b c = true → cntDescLe a c = true := by
  unfold cntDescLe
  simp only [decide_eq_true_eq]
  omega

/-- How many times token `c` arises from splitting-and-trimming the country
fields of `store` (one contribution per token, so "A, B" feeds both A
and B); counted over the store in insertion order, which shows the counts do
not depend on any ordering. -/
def countryOccurrences (c : String) (store : List Title) : Nat :=
  ((store.filter hasCountry).flatMap countryTokens).countP
    (fun t => decide (t = c))

theorem lookupN_countryCountsList (c : String) (records : List Title) :
    lookupN c (countryCountsList records) =
      (records.flatMap countryTokens).countP (fun t => decide (t = c)) := by
  rw [countryCountsList_eq, tally, lookupN_tallyFrom]
  simp only [lookupN, Nat.zero_add]
  exact weights_filter_map (fun t => t) (fun x => decide (x = c)) _

theorem nodup_keysOf_countryCountsList (records : List Title) :
    (keysOf (countryCountsList records)).Nodup := by
  rw [countryCountsList_eq]
  exact nodup_keysOf_tally _

/-- `(l.take k).filter p` is a prefix of `l.filter p`. -/
theorem filter_take {α : Type} (p : α → Bool) (k : Nat) (l : List α) :
    (l.take k).filter p = (l.filter p).take ((l.take k).countP p) := by
  induction l generalizing k with
  | nil => simp
  | cons x xs ih =>
    cases k with
    | zero => simp
    | succ k' =>
      simp only [List.take_succ_cons, List.filter_cons, List.countP_cons]
      by_cases h : p x = true
      · simp [h, ih]
      · simp [h, ih]

theorem cntDescLe_stable {κ : Type} (n : Nat) (x y : κ × Nat) :
    (x.2 == n) = true → cntDescLe x y = false → (y.2 == n) = false := by
  intro hx hle
  simp only [cntDescLe, decide_eq_false_iff_not] at hle
  simp only [beq_iff_eq] at hx
  simp only [beq_eq_false_iff_ne]
  omega

/-- Claim C1, amended: the top-countries ranking counts one increment per
trimmed comma token, returns at most 10 entries sorted by count descending,
with counts independent of the store's order; ties keep first-seen order in
the store's default iteration order (`dateAdded` desc, `releaseYear` desc) —
the order `countryCountsOf` lists them in. -/
theorem claim_C1_top_countries (store : List Title) :
    (statistics store).top_countries = topCountriesOf store ∧
    (statistics store).top_countries.length ≤ 10 ∧
    (statistics store).top_countries.Pairwise (fun a b => b.2 ≤ a.2) ∧
    (∀ c n, (c, n) ∈ (statistics store).top_countries →
      n = countryOccurrences c store) ∧
    (∀ n : Nat, ∃ m : Nat,
      (statistics store).top_countries.filter (fun p => p.2 == n) =
        ((countryCountsOf store).filter (fun p => p.2 == n)).take m) := by
  have hperm : (sortS cntDescLe (countryCountsOf store)).Perm
      (countryCountsOf store) := sortS_perm _ _
  refine ⟨rfl, ?_, ?_, ?_, ?_⟩
  · show (List.take 10 _).length ≤ 10
    rw [List.length_take]
    exact min_le_left _ _
  · have hpw := sortS_pairwise cntDescLe cntDescLe_total cntDescLe_trans
      (countryCountsOf store)
    have hpw2 := hpw.sublist (List.take_sublist 10 _)
    refine hpw2.imp ?_
    intro a b hab
    simpa [cntDescLe] using hab
  · intro c n hmem
    have hmem2 : (c, n) ∈ sortS cntDescLe (countryCountsOf store) :=
      (List.take_sublist 10 _).mem hmem
    have hmem3 : (c, n) ∈ countryCountsOf store := hperm.mem_iff.mp hmem2
    have hl := lookupN_of_mem_nodup hmem3
      (nodup_keysOf_countryCountsList _)
    unfold countryCountsOf at hl
    rw [lookupN_countryCountsList] at hl
    rw [← hl]
    show (((defaultSort store).filter hasCountry).flatMap
        countryTokens).countP (fun t => decide (t = c)) = _
    have hperm2 : (((defaultSort store).filter hasCountry).flatMap
        countryTokens).Perm ((store.filter hasCountry).flatMap countryTokens) :=
      ((defaultSort_perm store).filter hasCountry).flatMap_right countryTokens
    exact hperm2.countP_eq _
  · intro n
    refine ⟨(List.take 10 (sortS cntDescLe (countryCountsOf store))).countP
      (fun p => p.2 == n), ?_⟩
    show (List.take 10 (sortS cntDescLe (countryCountsOf store))).filter
        (fun p => p.2 == n) = _
    rw [filter_take, sortS_filter cntDescLe (fun p => p.2 == n)
      (cntDescLe_stable n) (countryCountsOf store)]

/-- Witness for the amended C1 at a concrete store. -/
theorem claim_C1_witness :
    (statistics [sampleA, sampleB]).top_countries.length ≤ 10 ∧
    (1 : Nat) = countryOccurrences "France" [sampleA, sampleB] := by
  constructor
  · exact (claim_C1_top_countries [sampleA, sampleB]).2.1
  · exact (claim_C1_top_countries [sampleA, sampleB]).2.2.2.1 "France" 1
      (by decide)

/-- Modelled from the claim's words, for comparison with the code: the same
counting and count-descending stable sort, but with ties broken by
first-seen order in store-insertion order ("insertion order into the store,
independent of any other ordering"): the counter is built by iterating the
store as inserted. -/
def topCountriesClaimOrder (store : List Title) : List (String × Nat) :=
  (sortS cntDescLe (countryCountsList (store.filter hasCountry))).take 10

def cexA : Title :=
  ⟨"c1", "Movie", "CA", none, none, some "A", some 10, 2000, none, "5 min",
    "G", "d"⟩

def cexB : Title :=
  ⟨"c2", "Movie", "CB", none, none, some "B", some 20, 2000, none, "5 min",
    "G", "d"⟩

/-- Counterexample to C1 as stated: records inserted [A-record, B-record],
dated so the B-record iterates first under the default ordering. Both
countries count 1; the code ranks B before A (first seen in iteration
order), while ranking by insertion order into the store would put A first.
-/
theorem claim_C1_counterexample :
    (statistics [cexA, cexB]).top_countries = [("B", 1), ("A", 1)] ∧
    topCountriesClaimOrder [cexA, cexB] = [("A", 1), ("B", 1)] ∧
    (statistics [cexA, cexB]).top_countries ≠
      topCountriesClaimOrder [cexA, cexB] := by
  refine ⟨by decide, by decide, by decide⟩

end NetflixAPI
